import Mathlib

/-!
Shallow embedding of the staff-management module (`common.py`): the `Teacher`
entity with its derived metrics (`finished_demo_lessons`, `paid_after_demo`,
`conversion`), the onboarding workflow (`Teacher.create`), the blocking
workflow (`block`), position generation (`generate_position`), material
listing (`get_basic_materials`) and the `TeacherMaterial.name` accessor.

Database rows (lessons, student courses, salary profiles, groups, user tests)
are modelled as explicit lists; the persistence layer's side effects become
explicit state passing.  External collaborators (inflection engine, URL
signing, file storage) are modelled as data carried in the state or as plain
string builders.
-/

namespace School

/-- Language catalog row: a code, a machine name and the genitive-case
rendering produced by the external inflection engine (`in_case('gent')`). -/
structure Language where
  code : String
  machine_name : String
  gent : String
  deriving DecidableEq

/-- Linked user account: identity, first name, activation flag and whether the
login credentials are usable (`set_unusable_password` clears the last one). -/
structure UserRec where
  id : Nat
  first_name : String
  is_active : Bool
  password_usable : Bool
  deriving DecidableEq

/-- Teacher row: linked user, required primary language, additional languages
(many-to-many), the `russian` / `native` flags and the stored `position`. -/
structure Teacher where
  user : UserRec
  language : Language
  additional_languages : List Language
  russian : Bool
  native : Bool
  position : Option String
  deriving DecidableEq

/-- Row of `SingleTeacherLesson` joined with its course: the teacher, the
student, the course language machine name, the base-course code, the
`finished` flag and the lesson start instant. -/
structure SingleTeacherLesson where
  teacher_id : Nat
  student_id : Nat
  course_language : String
  course_code : String
  finished : Bool
  start : Nat
  deriving DecidableEq

/-- Row of `StudentCourse`: the student, the base-course code and the creation
instant. -/
structure StudentCourse where
  student_id : Nat
  course_code : String
  created : Nat
  deriving DecidableEq

/-- Teacher availability row (`freetime` / `freetimetemplate`). -/
structure FreeTime where
  id : Nat
  available : Bool
  deriving DecidableEq

/-- Teacher together with its availability rows, the state `block()` acts on. -/
structure TeacherSchedule where
  teacher : Teacher
  freetimes : List FreeTime
  freetimetemplates : List FreeTime
  deriving DecidableEq

/-- Calendar date. -/
structure Date where
  year : Nat
  month : Nat
  day : Nat
  deriving DecidableEq

/-- Onboarding test assignment row (`UserTest`). -/
structure UserTestRec where
  user_id : Nat
  asset : String
  due_date : Date
  deriving DecidableEq

/-- Greeting email as rendered by `Teacher.create`. -/
structure GreetingEmail where
  user_id : Nat
  subject : String
  name : String
  password : String
  native : Bool
  deriving DecidableEq

/-- Persistent state touched by `Teacher.create`: salary profiles (by user id),
permission groups, group memberships, user tests and the outgoing mail log. -/
structure OnboardState where
  salary_profiles : List Nat
  groups : List String
  user_groups : List (Nat × String)
  user_tests : List UserTestRec
  sent_emails : List GreetingEmail
  deriving DecidableEq

/-- Keyword arguments of `Teacher.create` after popping
`__send_greeting_email` (default `true`) and `additional_languages`
(default `[]`). -/
structure CreateKwargs where
  language : Language
  additional_languages : List Language
  russian : Bool
  native : Bool
  send_greeting_email : Bool
  deriving DecidableEq

/-- Material record tied to a language code, as produced by
`get_basic_materials`. -/
structure MaterialEntry where
  code : String
  name : String
  url : String
  deriving DecidableEq

/-- File attachment row (`TeacherMaterial`). -/
structure TeacherMaterial where
  language : Language
  attachment : String
  russian : Bool
  native : Bool
  deriving DecidableEq

/-- `Teacher.DEMOS_MIN`. -/
def DEMOS_MIN : Nat := 10

/-- `Employee.name`: the linked user's first name. -/
def Teacher.name (t : Teacher) : String :=
  t.user.first_name

/-- `Teacher.all_languages_codes`: the set of codes of the primary and the
additional languages (modelled as a duplicate-free list). -/
def Teacher.all_languages_codes (t : Teacher) : List String :=
  (t.language.code :: t.additional_languages.map (fun l => l.code)).dedup

/-- `Teacher._finished_demo_lessons()`: the teacher's lessons whose base
course is `DEMO` or `NATIVE-DEMO` and which are finished. -/
def finishedDemoLessons (lessons : List SingleTeacherLesson) (tid : Nat) :
    List SingleTeacherLesson :=
  lessons.filter (fun l =>
    l.teacher_id == tid
      && (l.course_code == "DEMO" || l.course_code == "NATIVE-DEMO")
      && l.finished)

/-- Inner query of `paid_after_demo`: the lesson's student has some course
that is not `DEMO`/`NATIVE-DEMO` and was not created before the lesson
start (`.exclude(created__lt=lesson.start)`). -/
def paidCourseOnOrAfter (courses : List StudentCourse)
    (lesson : SingleTeacherLesson) : Bool :=
  courses.any (fun c =>
    c.student_id == lesson.student_id
      && !(c.created < lesson.start)
      && c.course_code != "DEMO"
      && c.course_code != "NATIVE-DEMO")

/-- `Teacher.paid_after_demo`: the loop over the finished demo lessons,
incrementing `students_pay` once per lesson whose student has a qualifying
non-demo course. -/
def paid_after_demo (lessons : List SingleTeacherLesson)
    (courses : List StudentCourse) (tid : Nat) : Nat :=
  (finishedDemoLessons lessons tid).foldl
    (fun students_pay lesson =>
      if paidCourseOnOrAfter courses lesson then students_pay + 1
      else students_pay)
    0

/-- Reading of the spec sentence for `paid_after_demo`: the number of
DISTINCT students having a finished demo lesson with the teacher after which
(on/after its start) they purchased a non-demo course.  Kept alongside the
code's per-lesson count for comparison. -/
def paidAfterDemoDistinctClaim (lessons : List SingleTeacherLesson)
    (courses : List StudentCourse) (tid : Nat) : Nat :=
  ((((finishedDemoLessons lessons tid).filter
      (fun l => paidCourseOnOrAfter courses l)).map
      (fun l => l.student_id)).dedup).length

/-- Python's `round(q, 2)`: scale by 100, round half to even, scale back. -/
def pyRound2 (q : ℚ) : ℚ :=
  ((if q * 100 - (⌊q * 100⌋ : ℚ) > 1 / 2 then ⌊q * 100⌋ + 1
    else if q * 100 - (⌊q * 100⌋ : ℚ) < 1 / 2 then ⌊q * 100⌋
    else if ⌊q * 100⌋ % 2 = 0 then ⌊q * 100⌋
    else ⌊q * 100⌋ + 1 : ℤ) : ℚ) / 100

/-- `Teacher.conversion`: `1.0` below `DEMOS_MIN` finished demos, otherwise
`round(paid_after_demo / finished_demo_lessons, 2)`. -/
def conversion (lessons : List SingleTeacherLesson)
    (courses : List StudentCourse) (tid : Nat) : ℚ :=
  if (finishedDemoLessons lessons tid).length < DEMOS_MIN then 1
  else
    pyRound2 ((paid_after_demo lessons courses tid : ℚ) /
      ((finishedDemoLessons lessons tid).length : ℚ))

/-- Division that records the division-by-zero hazard explicitly. -/
def checkedDiv (a b : ℚ) : Option ℚ :=
  if b = 0 then none else some (a / b)

/-- `conversion` with the division site guarded: `none` would mean the code
divides by zero. -/
def conversionChecked (lessons : List SingleTeacherLesson)
    (courses : List StudentCourse) (tid : Nat) : Option ℚ :=
  if (finishedDemoLessons lessons tid).length < DEMOS_MIN then some 1
  else
    (checkedDiv (paid_after_demo lessons courses tid : ℚ)
      ((finishedDemoLessons lessons tid).length : ℚ)).map pyRound2

/-- Ten finished demo lessons of teacher 1, one per student 1..10. -/
def exampleDemoLessons : List SingleTeacherLesson :=
  [⟨1, 1, "en", "DEMO", true, 0⟩, ⟨1, 2, "en", "DEMO", true, 0⟩,
   ⟨1, 3, "en", "DEMO", true, 0⟩, ⟨1, 4, "en", "DEMO", true, 0⟩,
   ⟨1, 5, "en", "DEMO", true, 0⟩, ⟨1, 6, "en", "DEMO", true, 0⟩,
   ⟨1, 7, "en", "DEMO", true, 0⟩, ⟨1, 8, "en", "DEMO", true, 0⟩,
   ⟨1, 9, "en", "DEMO", true, 0⟩, ⟨1, 10, "en", "DEMO", true, 0⟩]

/-- Paid (non-demo) courses for students 1, 2 and 3, created after the demos. -/
def exampleCourses : List StudentCourse :=
  [⟨1, "ENG-STD", 5⟩, ⟨2, "ENG-STD", 5⟩, ⟨3, "ENG-STD", 5⟩]

/-- Two finished demo lessons of teacher 1 with the SAME student 7, plus one
later paid course of that student. -/
def c2Lessons : List SingleTeacherLesson :=
  [⟨1, 7, "en", "DEMO", true, 0⟩, ⟨1, 7, "en", "DEMO", true, 1⟩]

/-- Single paid course of student 7, created after both demo lessons. -/
def c2Courses : List StudentCourse :=
  [⟨7, "ENG-STD", 5⟩]

/-- First word of a pattern match: `leadsWith pat l` is true when `pat` opens
`l`. -/
def leadsWith : List Char → List Char → Bool
  | [], _ => true
  | _ :: _, [] => false
  | p :: ps, c :: cs => p == c && leadsWith ps cs

/-- Substring search on character lists, the model of Python's `in`. -/
def hasSub (pat : List Char) : List Char → Bool
  | [] => leadsWith pat []
  | c :: cs => leadsWith pat (c :: cs) || hasSub pat cs

/-- Python's `pat in s` on strings. -/
def strContains (s pat : String) : Bool :=
  hasSub pat.toList s.toList

/-- Python's `', '.join(...)`. -/
def joinComma : List String → String
  | [] => ""
  | [s] => s
  | s :: rest => s ++ ", " ++ joinComma rest

/-- Joined genitive names of the catalog languages whose code belongs to the
teacher, the local variable `languages` of `generate_position`. -/
def positionLanguages (catalog : List Language) (t : Teacher) : String :=
  joinComma ((catalog.filter
    (fun l => decide (l.code ∈ t.all_languages_codes))).map (fun l => l.gent))

/-- `Teacher.generate_position`: Russian job title built from the genitive
names, with the plural suffix chosen by `', ' in languages` and the native
suffix by the `native` flag. -/
def generate_position (catalog : List Language) (t : Teacher) : String :=
  "Преподаватель " ++ positionLanguages catalog t ++ " язык"
    ++ (if strContains (positionLanguages catalog t) ", " then "ов" else "а")
    ++ (if t.native then ", носитель" else "")

/-- Gregorian leap year. -/
def isLeap (y : Nat) : Bool :=
  y % 4 == 0 && (y % 100 != 0 || y % 400 == 0)

/-- Days in a month. -/
def daysInMonth (y m : Nat) : Nat :=
  if m == 2 then (if isLeap y then 29 else 28)
  else if m == 4 || m == 6 || m == 9 || m == 11 then 30
  else 31

/-- `relativedelta(months=1)`: advance the month, clamping the day to the
length of the target month. -/
def addOneMonth (d : Date) : Date :=
  if d.month == 12 then
    ⟨d.year + 1, 1, min d.day (daysInMonth (d.year + 1) 1)⟩
  else
    ⟨d.year, d.month + 1, min d.day (daysInMonth d.year (d.month + 1))⟩

/-- `Teacher._assign_tests`: two test assignments (`webinar1`, `webinar2`)
due one calendar month from today. -/
def assignTests (st : OnboardState) (uid : Nat) (today : Date) : OnboardState :=
  { st with user_tests := st.user_tests ++
      [⟨uid, "webinar1", addOneMonth today⟩, ⟨uid, "webinar2", addOneMonth today⟩] }

/-- Teacher row right after `Teacher.objects.create(user=user, **kwargs)`:
the additional languages are NOT yet attached. -/
def preAttachTeacher (user : UserRec) (kw : CreateKwargs) : Teacher :=
  { user := user, language := kw.language, additional_languages := [],
    russian := kw.russian, native := kw.native, position := none }

/-- `Teacher.create`: create the row, generate and store the position, attach
the additional languages, create a salary profile, add the user to the
"Helpdesk support" group (get-or-create), assign the onboarding tests when
`russian`, and send the greeting email unless suppressed. -/
def Teacher.create (catalog : List Language) (today : Date) (st : OnboardState)
    (user : UserRec) (password : String) (kw : CreateKwargs) :
    Teacher × OnboardState :=
  let teacher0 := preAttachTeacher user kw
  let teacher1 := { teacher0 with position := some (generate_position catalog teacher0) }
  let teacher := { teacher1 with additional_languages := kw.additional_languages }
  let st1 := { st with salary_profiles := st.salary_profiles ++ [user.id] }
  let st2 := { st1 with
    groups := if "Helpdesk support" ∈ st1.groups then st1.groups
              else st1.groups ++ ["Helpdesk support"],
    user_groups := st1.user_groups ++ [(user.id, "Helpdesk support")] }
  let st3 := if teacher.russian then assignTests st2 user.id today else st2
  let st4 := if kw.send_greeting_email then
      { st3 with sent_emails := st3.sent_emails ++
          [⟨user.id, "Access to teacher\x27s dashboard", teacher.name, password,
            teacher.native⟩] }
    else st3
  (teacher, st4)

/-- `Teacher.block()`: disable every availability row, deactivate the user and
make the password unusable.  The `teacher_blocked` broadcast goes to external
listeners with isolated failures and touches no state of this module. -/
def block (s : TeacherSchedule) : TeacherSchedule :=
  { teacher := { s.teacher with
      user := { s.teacher.user with is_active := false, password_usable := false } },
    freetimes := s.freetimes.map (fun ft => { ft with available := false }),
    freetimetemplates := s.freetimetemplates.map (fun ft => { ft with available := false }) }

/-- Languages of the student's lesson history with this teacher
(`course__base_course__language__machine_name`, as a set). -/
def studentLessonLangs (lessons : List SingleTeacherLesson)
    (tid student : Nat) : List String :=
  ((lessons.filter (fun l => l.student_id == student && l.teacher_id == tid)).map
    (fun l => l.course_language)).dedup

/-- Machine names of the teacher's own languages (additional plus primary,
as a set). -/
def teacherLangNames (t : Teacher) : List String :=
  ((t.additional_languages.map (fun l => l.machine_name))
    ++ [t.language.machine_name]).dedup

/-- Intersection taken by `language_for_student`. -/
def langIntersection (lessons : List SingleTeacherLesson) (t : Teacher)
    (tid student : Nat) : List String :=
  (studentLessonLangs lessons tid student).filter
    (fun s => decide (s ∈ teacherLangNames t))

/-- `Teacher.language_for_student`: pop some element of the intersection, or
fall back to the primary language's machine name. -/
def language_for_student (lessons : List SingleTeacherLesson) (t : Teacher)
    (tid student : Nat) : String :=
  (langIntersection lessons t tid student).headD t.language.machine_name

/-- Model of `re.match(r'module\d+(_theory|)\.pdf', f)`: anchored at the
start, at least one digit after `module`, then `_theory.pdf` or `.pdf`,
trailing characters allowed. -/
def matchesModulePdf (f : String) : Bool :=
  leadsWith "module".toList f.toList
    && !((f.toList.drop 6).takeWhile (fun c => c.isDigit)).isEmpty
    && (leadsWith "_theory.pdf".toList ((f.toList.drop 6).dropWhile (fun c => c.isDigit))
        || leadsWith ".pdf".toList ((f.toList.drop 6).dropWhile (fun c => c.isDigit)))

/-- Model of `signing.dumps((user.pk, f, code))`. -/
def signToken (uid : Nat) (f code : String) : String :=
  toString uid ++ "." ++ f ++ "." ++ code

/-- Model of `get_full_url('teacher_material_template', args=('ru', code, f))`. -/
def materialTemplateUrl (code f : String) : String :=
  "/materials/ru/" ++ code ++ "/" ++ f

/-- Candidate material codes: `<CODE>-BASIC-S` and `<CODE>-BASIC-N` per
assigned language code. -/
def basicCodes (t : Teacher) : List String :=
  t.all_languages_codes.flatMap
    (fun c => [c.toUpper ++ "-BASIC-S", c.toUpper ++ "-BASIC-N"])

/-- `Teacher.get_basic_materials`: empty for non-russian teachers; otherwise
scan the per-code template directories (the on-disk tree is the
`fs` association list) for files matching the module-pdf pattern and build
signed download records. -/
def get_basic_materials (fs : List (String × List String)) (t : Teacher) :
    List MaterialEntry :=
  if !t.russian then []
  else
    (basicCodes t).flatMap (fun code =>
      match fs.find? (fun d => d.1 == "materials/courses/templates/ru/" ++ code) with
      | none => []
      | some dir =>
        (dir.2.filter matchesModulePdf).map (fun f =>
          ⟨code, f, materialTemplateUrl code f ++ "?sign=" ++ signToken t.user.id f code⟩))

/-- `os.path.basename`: the part after the last slash. -/
def basename (p : String) : String :=
  String.mk ((p.toList.reverse.takeWhile (fun c => c != '/')).reverse)

/-- Storage access for `attachment.file`: the file when it exists, `none`
standing for `FileNotFoundError`. -/
def storageOpen (files : List String) (p : String) : Option String :=
  if p ∈ files then some p else none

/-- `TeacherMaterial.name`: base name of the attached file, or the placeholder
when the storage access fails. -/
def TeacherMaterial.name (files : List String) (m : TeacherMaterial) : String :=
  match storageOpen files m.attachment with
  | some f => basename f
  | none => "-- file not found --"

/-- English catalog row used in concrete scenarios. -/
def exEn : Language :=
  ⟨"en", "english", "английского"⟩

/-- German catalog row used in concrete scenarios. -/
def exDe : Language :=
  ⟨"de", "german", "немецкого"⟩

/-- Two-language catalog used in concrete scenarios. -/
def exCatalog : List Language :=
  [exEn, exDe]

/-- Concrete user for onboarding scenarios. -/
def exUser : UserRec :=
  ⟨7, "Anna", true, true⟩

/-- Concrete current date for onboarding scenarios. -/
def exToday : Date :=
  ⟨2026, 10, 12⟩

/-- Empty initial onboarding state. -/
def exState : OnboardState :=
  ⟨[], [], [], [], []⟩

/-- Onboarding arguments: russian market, not native, greeting mail on, no
additional languages. -/
def exKw : CreateKwargs :=
  ⟨exEn, [], true, false, true⟩

/-- Onboarding arguments with one additional language (and everything else
off), used to refute the position claim. -/
def c4Kw : CreateKwargs :=
  ⟨exEn, [exDe], false, false, false⟩

/-- Teacher assigned both catalog languages, for position-format scenarios. -/
def c4Teacher : Teacher :=
  ⟨exUser, exEn, [exDe], false, false, none⟩

/-- Teacher with the russian flag unset but languages assigned. -/
def c8Teacher : Teacher :=
  ⟨exUser, exEn, [], false, false, none⟩

/-- On-disk tree holding a matching material file for the `en` code. -/
def c8Fs : List (String × List String) :=
  [("materials/courses/templates/ru/EN-BASIC-S", ["module1.pdf", "readme.txt"])]

/-- Schedule with one available row of each kind, for the blocking scenario. -/
def c7Schedule : TeacherSchedule :=
  ⟨c8Teacher, [⟨1, true⟩], [⟨2, true⟩]⟩

/-- Lesson history of student 5: one english lesson with teacher 1. -/
def c6Lessons : List SingleTeacherLesson :=
  [⟨1, 5, "english", "DEMO", true, 0⟩]

/-- Storage contents for the material-name scenario. -/
def c9Files : List String :=
  ["teachers/handbook.pdf"]

/-- Material whose file exists in storage. -/
def c9Material : TeacherMaterial :=
  ⟨exEn, "teachers/handbook.pdf", true, false⟩

/-- Material whose file is missing from storage. -/
def c9MaterialMissing : TeacherMaterial :=
  ⟨exEn, "teachers/lost.pdf", true, false⟩

/-- Rounding a fraction that is already an integer number of hundredths is
the identity. -/
theorem pyRound2_intCast_div (n : ℤ) : pyRound2 ((n : ℚ) / 100) = (n : ℚ) / 100 := by
  have hx : ((n : ℚ) / 100) * 100 = (n : ℚ) := by
    field_simp
  rw [pyRound2, hx, Int.floor_intCast, sub_self]
  rw [if_neg (by norm_num), if_pos (by norm_num)]

/-- C1: `conversion` returns exactly 1 when the finished-demo-lesson count is
below `DEMOS_MIN = 10` (whatever `paid_after_demo` is), returns
`round(paid_after_demo / finished_demo_lessons, 2)` when the count is at
least 10, and in particular 10 finished demos with 3 paid-after-demo give
0.3. -/
theorem conversion_formula (lessons : List SingleTeacherLesson)
    (courses : List StudentCourse) (tid : Nat) :
    ((finishedDemoLessons lessons tid).length < DEMOS_MIN →
      conversion lessons courses tid = 1)
    ∧ (DEMOS_MIN ≤ (finishedDemoLessons lessons tid).length →
      conversion lessons courses tid =
        pyRound2 ((paid_after_demo lessons courses tid : ℚ) /
          ((finishedDemoLessons lessons tid).length : ℚ)))
    ∧ conversion exampleDemoLessons exampleCourses 1 = 3 / 10 := by
  refine ⟨fun h => ?_, fun h => ?_, ?_⟩
  · rw [conversion, if_pos h]
  · rw [conversion, if_neg (Nat.not_lt.mpr h)]
  · have hlen : (finishedDemoLessons exampleDemoLessons 1).length = 10 := by decide
    have hpaid : paid_after_demo exampleDemoLessons exampleCourses 1 = 3 := by decide
    rw [conversion, hpaid, hlen, if_neg (by decide)]
    have hq : ((3 : ℕ) : ℚ) / ((10 : ℕ) : ℚ) = ((30 : ℤ) : ℚ) / 100 := by
      norm_num
    rw [hq, pyRound2_intCast_div]
    norm_num

/-- C1 witness: a teacher with no finished demo lessons gets conversion 1. -/
theorem conversion_formula_witness :
    (finishedDemoLessons [] 1).length < DEMOS_MIN ∧ conversion [] [] 1 = 1 :=
  ⟨by decide, (conversion_formula [] [] 1).1 (by decide)⟩

/-- C10: the division inside `conversion` never runs with a zero denominator:
the checked variant always returns `some` and agrees with `conversion`. -/
theorem conversion_division_safe (lessons : List SingleTeacherLesson)
    (courses : List StudentCourse) (tid : Nat) :
    conversionChecked lessons courses tid = some (conversion lessons courses tid) := by
  rw [conversionChecked, conversion]
  by_cases h : (finishedDemoLessons lessons tid).length < DEMOS_MIN
  · rw [if_pos h, if_pos h]
  · have hge : DEMOS_MIN ≤ (finishedDemoLessons lessons tid).length := Nat.le_of_not_lt h
    have hz : (((finishedDemoLessons lessons tid).length : ℕ) : ℚ) ≠ 0 := by
      have h0 : (finishedDemoLessons lessons tid).length ≠ 0 := by
        rw [DEMOS_MIN] at hge
        omega
      exact_mod_cast h0
    rw [if_neg h, if_neg h, checkedDiv, if_neg hz]
    rfl

/-- C5: `all_languages_codes` contains the primary code and is exactly the
union of the primary code and the additional codes; in particular it is never
empty. -/
theorem all_languages_codes_union (t : Teacher) :
    t.language.code ∈ t.all_languages_codes
    ∧ (∀ c : String, c ∈ t.all_languages_codes ↔
        c = t.language.code ∨ c ∈ t.additional_languages.map (fun l => l.code))
    ∧ t.all_languages_codes ≠ [] := by
  have hmem : t.language.code ∈ t.all_languages_codes := by
    rw [Teacher.all_languages_codes, List.mem_dedup]
    exact List.mem_cons_self _ _
  refine ⟨hmem, fun c => ?_, fun hnil => ?_⟩
  · rw [Teacher.all_languages_codes, List.mem_dedup, List.mem_cons]
  · rw [hnil] at hmem
    exact List.not_mem_nil _ hmem

/-- C5 witness: the additional code `de` of the two-language teacher is in
the union. -/
theorem all_languages_codes_union_witness :
    "de" ∈ c4Teacher.all_languages_codes :=
  ((all_languages_codes_union c4Teacher).2.1 "de").mpr (Or.inr (by decide))

/-- Counting loop written with `foldl` equals `countP`. -/
theorem count_loop_eq_countP {α : Type} (p : α → Bool) (l : List α) (n : ℕ) :
    l.foldl (fun acc x => if p x then acc + 1 else acc) n = n + l.countP p := by
  induction l generalizing n with
  | nil => simp
  | cons a l ih =>
    rw [List.foldl_cons, List.countP_cons, ih]
    cases hpa : p a
    all_goals simp [hpa]
    all_goals omega

/-- C2 counterexample: a student with two finished demo lessons and one later
paid course is counted twice by `paid_after_demo`, while the distinct-student
reading counts it once. -/
theorem paid_after_demo_counterexample :
    paid_after_demo c2Lessons c2Courses 1 = 2
    ∧ paidAfterDemoDistinctClaim c2Lessons c2Courses 1 = 1
    ∧ paid_after_demo c2Lessons c2Courses 1 ≠ paidAfterDemoDistinctClaim c2Lessons c2Courses 1 := by
  refine ⟨by decide, by decide, by decide⟩

/-- C2 amended: `paid_after_demo` counts the finished demo lessons whose
student has a non-demo course created on or after the lesson start — one per
lesson, not one per distinct student; the distinct-student count is only a
lower bound. -/
theorem paid_after_demo_counts_lessons (lessons : List SingleTeacherLesson)
    (courses : List StudentCourse) (tid : Nat) :
    paid_after_demo lessons courses tid =
      (finishedDemoLessons lessons tid).countP (fun l => paidCourseOnOrAfter courses l)
    ∧ paidAfterDemoDistinctClaim lessons courses tid ≤ paid_after_demo lessons courses tid := by
  have h1 : paid_after_demo lessons courses tid =
      (finishedDemoLessons lessons tid).countP (fun l => paidCourseOnOrAfter courses l) := by
    rw [paid_after_demo, count_loop_eq_countP, Nat.zero_add]
  refine ⟨h1, ?_⟩
  rw [h1, paidAfterDemoDistinctClaim]
  calc ((((finishedDemoLessons lessons tid).filter
          (fun l => paidCourseOnOrAfter courses l)).map (fun l => l.student_id)).dedup).length
      ≤ (((finishedDemoLessons lessons tid).filter
          (fun l => paidCourseOnOrAfter courses l)).map (fun l => l.student_id)).length :=
        (List.dedup_sublist _).length_le
    _ = ((finishedDemoLessons lessons tid).filter
          (fun l => paidCourseOnOrAfter courses l)).length := by
        simp
    _ = (finishedDemoLessons lessons tid).countP (fun l => paidCourseOnOrAfter courses l) := by
        rw [List.countP_eq_length_filter]

/-- C7: `block` is idempotent, leaves every availability flag false, the user
inactive and the credentials unusable. -/
theorem block_idempotent (s : TeacherSchedule) :
    block (block s) = block s
    ∧ (∀ ft ∈ (block s).freetimes, ft.available = false)
    ∧ (∀ ft ∈ (block s).freetimetemplates, ft.available = false)
    ∧ (block s).teacher.user.is_active = false
    ∧ (block s).teacher.user.password_usable = false := by
  refine ⟨?_, ?_, ?_, rfl, rfl⟩
  · simp only [block, List.map_map]
    rfl
  · intro ft hft
    simp only [block, List.mem_map] at hft
    obtain ⟨x, -, rfl⟩ := hft
    rfl
  · intro ft hft
    simp only [block, List.mem_map] at hft
    obtain ⟨x, -, rfl⟩ := hft
    rfl

/-- C7 witness: the concrete one-row schedule reaches the all-false fixed
point after one call. -/
theorem block_idempotent_witness :
    (⟨1, false⟩ : FreeTime).available = false ∧ block (block c7Schedule) = block c7Schedule :=
  ⟨(block_idempotent c7Schedule).2.1 ⟨1, false⟩ (by decide),
   (block_idempotent c7Schedule).1⟩

/-- C8: a teacher without the russian flag gets no basic materials, whatever
the on-disk tree contains. -/
theorem get_basic_materials_non_russian (fs : List (String × List String))
    (t : Teacher) (h : t.russian = false) :
    get_basic_materials fs t = [] := by
  simp [get_basic_materials, h]

/-- C8 witness: the tree holds a matching `module1.pdf`, yet the non-russian
teacher gets an empty list. -/
theorem get_basic_materials_non_russian_witness :
    c8Teacher.russian = false ∧ get_basic_materials c8Fs c8Teacher = [] :=
  ⟨rfl, get_basic_materials_non_russian c8Fs c8Teacher rfl⟩

/-- C9: `TeacherMaterial.name` is total by construction: base name when the
file exists in storage, the fixed placeholder when it does not. -/
theorem teacher_material_name_total (files : List String) (m : TeacherMaterial) :
    (m.attachment ∈ files → TeacherMaterial.name files m = basename m.attachment)
    ∧ (m.attachment ∉ files → TeacherMaterial.name files m = "-- file not found --") := by
  constructor
  · intro h
    simp [TeacherMaterial.name, storageOpen, h]
  · intro h
    simp [TeacherMaterial.name, storageOpen, h]

/-- C9 witness: both branches on concrete storage contents. -/
theorem teacher_material_name_total_witness :
    TeacherMaterial.name c9Files c9Material = "handbook.pdf"
    ∧ TeacherMaterial.name c9Files c9MaterialMissing = "-- file not found --" :=
  ⟨((teacher_material_name_total c9Files c9Material).1 (by decide)).trans (by decide),
   (teacher_material_name_total c9Files c9MaterialMissing).2 (by decide)⟩

/-- C6: `language_for_student` returns a member of the intersection of the
student's lesson languages with the teacher's languages when it is non-empty,
and the primary language's machine name otherwise. -/
theorem language_for_student_in_intersection (lessons : List SingleTeacherLesson)
    (t : Teacher) (tid student : Nat) :
    (langIntersection lessons t tid student ≠ [] →
      language_for_student lessons t tid student ∈ studentLessonLangs lessons tid student
      ∧ language_for_student lessons t tid student ∈ teacherLangNames t)
    ∧ (langIntersection lessons t tid student = [] →
      language_for_student lessons t tid student = t.language.machine_name) := by
  cases hI : langIntersection lessons t tid student with
  | nil =>
    refine ⟨fun hne => absurd rfl hne, fun _ => ?_⟩
    rw [language_for_student, hI]
    rfl
  | cons x xs =>
    refine ⟨fun _ => ?_, fun hc => absurd hc (List.cons_ne_nil x xs)⟩
    have hx : x ∈ langIntersection lessons t tid student := by
      rw [hI]
      exact List.mem_cons_self x xs
    rw [langIntersection, List.mem_filter] at hx
    have hres : language_for_student lessons t tid student = x := by
      rw [language_for_student, hI]
      rfl
    rw [hres]
    exact ⟨hx.1, of_decide_eq_true hx.2⟩

/-- C6 witness: student 5 studied english with teacher 1, and english is the
teacher's language, so it is returned. -/
theorem language_for_student_witness :
    language_for_student c6Lessons c8Teacher 1 5 ∈ studentLessonLangs c6Lessons 1 5
    ∧ language_for_student c6Lessons c8Teacher 1 5 ∈ teacherLangNames c8Teacher :=
  (language_for_student_in_intersection c6Lessons c8Teacher 1 5).1 (by decide)

/-- C3: with the russian flag set, `Teacher.create` adds exactly one salary
profile for the user, puts the user in the "Helpdesk support" group (creating
the group when missing), creates exactly the two webinar test assignments due
one calendar month from today, and sends the greeting email iff not
suppressed. -/
theorem teacher_create_russian_effects (catalog : List Language) (today : Date)
    (st : OnboardState) (user : UserRec) (password : String) (kw : CreateKwargs)
    (hr : kw.russian = true) :
    (Teacher.create catalog today st user password kw).2.salary_profiles
        = st.salary_profiles ++ [user.id]
    ∧ "Helpdesk support" ∈ (Teacher.create catalog today st user password kw).2.groups
    ∧ (Teacher.create catalog today st user password kw).2.user_groups
        = st.user_groups ++ [(user.id, "Helpdesk support")]
    ∧ (Teacher.create catalog today st user password kw).2.user_tests
        = st.user_tests ++ [⟨user.id, "webinar1", addOneMonth today⟩,
            ⟨user.id, "webinar2", addOneMonth today⟩]
    ∧ (kw.send_greeting_email = true →
        (Teacher.create catalog today st user password kw).2.sent_emails
          = st.sent_emails ++ [⟨user.id, "Access to teacher\x27s dashboard",
              user.first_name, password, kw.native⟩])
    ∧ (kw.send_greeting_email = false →
        (Teacher.create catalog today st user password kw).2.sent_emails
          = st.sent_emails) := by
  by_cases hg : "Helpdesk support" ∈ st.groups <;>
    cases hsend : kw.send_greeting_email <;>
      simp [Teacher.create, assignTests, preAttachTeacher, Teacher.name, hr, hsend, hg]

/-- C3 witness: the concrete russian onboarding creates the two webinar tests
due 2026-11-12 (one month after 2026-10-12) and one salary profile. -/
theorem teacher_create_russian_effects_witness :
    exKw.russian = true
    ∧ (Teacher.create exCatalog exToday exState exUser "secret" exKw).2.user_tests
        = [⟨7, "webinar1", ⟨2026, 11, 12⟩⟩, ⟨7, "webinar2", ⟨2026, 11, 12⟩⟩]
    ∧ (Teacher.create exCatalog exToday exState exUser "secret" exKw).2.salary_profiles
        = [7] :=
  ⟨rfl,
   ((teacher_create_russian_effects exCatalog exToday exState exUser "secret" exKw
      rfl).2.2.2.1).trans (by decide),
   ((teacher_create_russian_effects exCatalog exToday exState exUser "secret" exKw
      rfl).1).trans (by decide)⟩

/-- Matching a pattern against itself followed by anything succeeds. -/
theorem leadsWith_append (p l : List Char) : leadsWith p (p ++ l) = true := by
  induction p with
  | nil => rfl
  | cons c p ih => simp [leadsWith, ih]

/-- Substring search succeeds when the pattern opens the text. -/
theorem hasSub_of_leadsWith (pat l : List Char) (h : leadsWith pat l = true) :
    hasSub pat l = true := by
  cases l with
  | nil => exact h
  | cons c cs => simp [hasSub, h]

/-- Substring search finds a literal occurrence of the pattern. -/
theorem hasSub_append (pat l1 l2 : List Char) :
    hasSub pat (l1 ++ (pat ++ l2)) = true := by
  induction l1 with
  | nil =>
    rw [List.nil_append]
    exact hasSub_of_leadsWith pat _ (leadsWith_append pat l2)
  | cons c l1 ih =>
    rw [List.cons_append]
    simp [hasSub, ih]

/-- `', ' in ', '.join(ns)` is exactly "at least two names", provided no
single name contains `", "`. -/
theorem strContains_joinComma (ns : List String)
    (h : ∀ n ∈ ns, strContains n ", " = false) :
    strContains (joinComma ns) ", " = decide (2 ≤ ns.length) := by
  match ns with
  | [] => rfl
  | [n] =>
    have hn := h n (List.mem_cons_self n [])
    simp only [joinComma]
    rw [hn]
    rfl
  | a :: b :: rest =>
    have hlen : decide (2 ≤ (a :: b :: rest).length) = true := by
      simp [List.length_cons]
    rw [hlen]
    have hj : joinComma (a :: b :: rest) = a ++ ", " ++ joinComma (b :: rest) := rfl
    rw [strContains, hj]
    have ht : (a ++ ", " ++ joinComma (b :: rest)).toList
        = (a.toList ++ ", ".toList) ++ (joinComma (b :: rest)).toList := rfl
    rw [ht, List.append_assoc]
    exact hasSub_append _ _ _

/-- Filtering a duplicate-free catalog by membership of the code in a
duplicate-free covered code list keeps exactly one row per code. -/
theorem length_filter_mem (catalog : List Language) (S : List String)
    (hnd : (catalog.map (fun l => l.code)).Nodup) (hS : S.Nodup)
    (hsub : ∀ c ∈ S, c ∈ catalog.map (fun l => l.code)) :
    (catalog.filter (fun l => decide (l.code ∈ S))).length = S.length := by
  induction catalog generalizing S with
  | nil =>
    have hSnil : S = [] := by
      cases S with
      | nil => rfl
      | cons c S => exact absurd (hsub c (List.mem_cons_self c S)) (by simp)
    rw [hSnil]
    rfl
  | cons l cat ih =>
    rw [List.map_cons, List.nodup_cons] at hnd
    by_cases hmem : l.code ∈ S
    · have hfil : (l :: cat).filter (fun x => decide (x.code ∈ S))
          = l :: cat.filter (fun x => decide (x.code ∈ S)) := by
        rw [List.filter_cons]
        simp [hmem]
      have hsub' : ∀ c ∈ S.erase l.code, c ∈ cat.map (fun x => x.code) := by
        intro c hc
        have hcS : c ∈ S := List.mem_of_mem_erase hc
        have hne : c ≠ l.code := ((List.Nodup.mem_erase_iff hS).mp hc).1
        rcases List.mem_cons.mp (hsub c hcS) with hceq | hcm
        · exact absurd hceq hne
        · exact hcm
      have hfc : cat.filter (fun x => decide (x.code ∈ S))
          = cat.filter (fun x => decide (x.code ∈ S.erase l.code)) := by
        apply List.filter_congr
        intro x hx
        have hxne : x.code ≠ l.code := by
          intro hxeq
          exact hnd.1 (hxeq ▸ List.mem_map_of_mem (fun y => y.code) hx)
        rw [decide_eq_decide]
        exact (List.mem_erase_of_ne hxne).symm
      have hlen1 : (S.erase l.code).length = S.length - 1 :=
        List.length_erase_of_mem hmem
      have hpos : 1 ≤ S.length := List.length_pos.mpr (List.ne_nil_of_mem hmem)
      rw [hfil, List.length_cons, hfc,
        ih (S.erase l.code) hnd.2 (hS.erase l.code) hsub', hlen1]
      omega
    · have hfil : (l :: cat).filter (fun x => decide (x.code ∈ S))
          = cat.filter (fun x => decide (x.code ∈ S)) := by
        rw [List.filter_cons]
        simp [hmem]
      have hsub' : ∀ c ∈ S, c ∈ cat.map (fun x => x.code) := by
        intro c hc
        rcases List.mem_cons.mp (hsub c hc) with hceq | hcm
        · have hc2 := hc
          rw [hceq] at hc2
          exact absurd (by simpa using hc2) hmem
        · exact hcm
      rw [hfil, ih S hnd.2 hS hsub']

/-- C4 amended: `generate_position` produces
`"Преподаватель <genitive names> язык<ов|а>[, носитель]"` with the plural
suffix iff at least two languages are assigned (provided the catalog has no
duplicate codes, covers the assigned codes, and no rendered name contains
`", "`), and the native suffix iff the native flag is set; `Teacher.create`
stores the position generated BEFORE the additional languages are attached,
i.e. from the primary language alone. -/
theorem generate_position_amended (catalog : List Language) (t : Teacher)
    (hnd : (catalog.map (fun l => l.code)).Nodup)
    (hsub : ∀ c ∈ t.all_languages_codes, c ∈ catalog.map (fun l => l.code))
    (hnc : ∀ l ∈ catalog, strContains l.gent ", " = false)
    (catalog2 : List Language) (today : Date) (st : OnboardState)
    (user : UserRec) (password : String) (kw : CreateKwargs) :
    generate_position catalog t =
      "Преподаватель " ++ positionLanguages catalog t ++ " язык"
        ++ (if 2 ≤ t.all_languages_codes.length then "ов" else "а")
        ++ (if t.native then ", носитель" else "")
    ∧ (Teacher.create catalog2 today st user password kw).1.position
        = some (generate_position catalog2 (preAttachTeacher user kw)) := by
  constructor
  · have hnames : ∀ n ∈ (catalog.filter
        (fun l => decide (l.code ∈ t.all_languages_codes))).map (fun l => l.gent),
        strContains n ", " = false := by
      intro n hn
      rw [List.mem_map] at hn
      obtain ⟨l, hl, rfl⟩ := hn
      exact hnc l (List.mem_of_mem_filter hl)
    have hlen : (catalog.filter
        (fun l => decide (l.code ∈ t.all_languages_codes))).length
        = t.all_languages_codes.length := by
      refine length_filter_mem catalog t.all_languages_codes hnd ?_ hsub
      rw [Teacher.all_languages_codes]
      exact List.nodup_dedup _
    have hcontains : strContains (positionLanguages catalog t) ", "
        = decide (2 ≤ t.all_languages_codes.length) := by
      rw [positionLanguages, strContains_joinComma _ hnames, List.length_map, hlen]
    rw [generate_position, hcontains]
    simp only [decide_eq_true_eq]
  · rfl

/-- C4 witness: with the two-language catalog, a teacher holding english plus
german gets the plural genitive title. -/
theorem generate_position_amended_witness :
    generate_position exCatalog c4Teacher
      = "Преподаватель английского, немецкого языков" :=
  ((generate_position_amended exCatalog c4Teacher (by decide) (by decide) (by decide)
    exCatalog exToday exState exUser "pw" exKw).1).trans (by decide)

/-- C4 counterexample: creating a teacher with one additional language stores
a position reflecting only the primary language, not the value of
`generate_position` on the created teacher's full language set. -/
theorem generate_position_counterexample :
    (Teacher.create exCatalog exToday exState exUser "pw" c4Kw).1.position
        = some "Преподаватель английского языка"
    ∧ generate_position exCatalog (Teacher.create exCatalog exToday exState exUser "pw" c4Kw).1
        = "Преподаватель английского, немецкого языков"
    ∧ (Teacher.create exCatalog exToday exState exUser "pw" c4Kw).1.position
        ≠ some (generate_position exCatalog
            (Teacher.create exCatalog exToday exState exUser "pw" c4Kw).1) := by
  refine ⟨by decide, by decide, by decide⟩

end School
